import Mathlib

/-!
Verification of the loc-verse scene generator (`scene.py`).

The script sizes a list of labeled values into sphere scales, lays the
spheres out along the x axis, and generates a camera fly-through keyframe
timeline.  We embed the three algorithmic cores:

* size mapping (`scene.py` line 186 and 192): `scale = value / max_value * SCALE_FACTOR`;
* the layout loop (`scene.py` lines 188-201): `x_position += previous_radius + scale + previous_radius`,
  sphere placed at `(x_position, 0, 0)` and then raised to `z = scale` by `add_sphere`;
* `animate_camera` (`scene.py` lines 134-151): two keyframes per sphere at
  `current_frame` and `current_frame + FRAME_PAUSE`, both at
  `(x, -radius*10, radius*1.3)`, then `current_frame += FRAME_MOVE`; finally
  `frame_end = current_frame`.

Numbers are modelled as rationals, frames as naturals.
-/

namespace LocVerse

/-- Configuration constant `SCALE_FACTOR = 2` (`scene.py` line 15). -/
def SCALE_FACTOR : ℚ := 2

/-- Configuration constant `FRAME_PAUSE = 24` (`scene.py` line 16). -/
def FRAME_PAUSE : ℕ := 24

/-- Configuration constant `FRAME_MOVE = 36` (`scene.py` line 17). -/
def FRAME_MOVE : ℕ := 36

/-- A dataset entry: a label and its numeric magnitude (a `DATA` item). -/
structure Item where
  name : String
  value : ℚ
deriving DecidableEq

/-- An item together with its computed visual scale. -/
structure ScaledItem where
  item : Item
  scale : ℚ
deriving DecidableEq

/-- The hard-coded dataset `DATA` (`scene.py` lines 5-13), in insertion order. -/
def DATA : List Item :=
  [⟨"Mail", 2301⟩, ⟨"JobCreator", 2754⟩, ⟨"JobReadinessChecker", 2841⟩,
   ⟨"InfraFailureAnalysis", 5033⟩, ⟨"Orchestrator", 5058⟩,
   ⟨"DropLocationScanner", 8977⟩, ⟨"TestFailureAnalysis", 12174⟩]

/-- Python `max` over the item values: undefined (`none`) on an empty list,
otherwise a left fold of binary `max` (`max(DATA.values())`, `scene.py` line 186). -/
def maxValue : List Item → Option ℚ
  | [] => none
  | it :: rest => some (rest.foldl (fun m i => max m i.value) it.value)

/-- The size-mapping stage: `scale = (value / max_value) * SCALE_FACTOR`
(`scene.py` line 192), applied to every item in order.  Fails (`none`) on an
empty dataset because the maximum is undefined. -/
def sizeMapper (items : List Item) : Option (List ScaledItem) :=
  match maxValue items with
  | none => none
  | some m => some (items.map (fun it => ⟨it, it.value / m * SCALE_FACTOR⟩))

/-- A sphere object as configured by the script: its name, uniform scale and
location. -/
structure Sphere where
  name : String
  scale : ℚ
  location : ℚ × ℚ × ℚ
deriving DecidableEq

/-- `add_sphere` (`scene.py` lines 73-88): creates the sphere at the given
location, sets its uniform scale, and overwrites the z coordinate with the
scale (`sphere.location[2] = scale`, line 83). -/
def add_sphere (name : String) (scale : ℚ) (location : ℚ × ℚ × ℚ) : Sphere :=
  { name := name, scale := scale, location := (location.1, location.2.1, scale) }

/-- One iteration of the main layout loop (`scene.py` lines 191-201): if there
is a previous sphere, advance `x_position` by
`previous_radius + scale + previous_radius`, then append the new sphere placed
at `(x_position, 0, 0)`. -/
def layoutStep (st : ℚ × List Sphere) (si : ScaledItem) : ℚ × List Sphere :=
  let x_position :=
    match st.2.getLast? with
    | some prev => st.1 + (prev.scale + si.scale + prev.scale)
    | none => st.1
  (x_position, st.2 ++ [add_sphere si.item.name si.scale (x_position, 0, 0)])

/-- The layout loop (`scene.py` lines 188-201), started from `x_position = 0`
and an empty sphere list. -/
def layout (scaled : List ScaledItem) : List Sphere :=
  (scaled.foldl layoutStep (0, [])).2

/-- A camera keyframe: frame number and camera position. -/
structure CameraKeyframe where
  frame : ℕ
  position : ℚ × ℚ × ℚ
deriving DecidableEq

/-- The camera position used for a sphere in `animate_camera`
(`scene.py` line 139): `(x, -radius*10, radius*1.3)`. -/
def cameraPos (sph : Sphere) : ℚ × ℚ × ℚ :=
  (sph.location.1, -sph.scale * 10, sph.scale * (13 / 10))

/-- The loop of `animate_camera` (`scene.py` lines 137-147): for each sphere
insert a keyframe at `current_frame`, advance by `FRAME_PAUSE`, insert a second
keyframe, advance by `FRAME_MOVE`.  Returns the keyframe list and the final
value of `current_frame` (assigned to `frame_end` at line 147). -/
def animate_camera : List Sphere → ℕ → List CameraKeyframe × ℕ
  | [], current_frame => ([], current_frame)
  | sph :: rest, current_frame =>
      let k1 : CameraKeyframe := ⟨current_frame, cameraPos sph⟩
      let k2 : CameraKeyframe := ⟨current_frame + FRAME_PAUSE, cameraPos sph⟩
      let tail := animate_camera rest (current_frame + FRAME_PAUSE + FRAME_MOVE)
      (k1 :: k2 :: tail.1, tail.2)

/-- The full camera timeline: `animate_camera` starts at `current_frame = 1`
(`scene.py` line 135). -/
def cameraTimeline (spheres : List Sphere) : List CameraKeyframe × ℕ :=
  animate_camera spheres 1

/-- The x-position sequence as worded by the spec: the first item at `0`, each
subsequent item at `x_i = x_{i-1} + 2 * scale_{i-1} + scale_i`.  Stated from
the spec, to be compared with `layout`. -/
def specXFrom (x p : ℚ) : List ℚ → List ℚ
  | [] => []
  | s :: rest => (x + 2 * p + s) :: specXFrom (x + 2 * p + s) s rest

/-- Spec-worded layout positions for a list of scales. -/
def specLayoutX : List ℚ → List ℚ
  | [] => []
  | s :: rest => 0 :: specXFrom 0 s rest

/-- Recursive rendering of the layout loop after the first sphere: `x` is the
current `x_position`, `p` the previous sphere's radius. -/
def layoutFrom (x p : ℚ) : List ScaledItem → List Sphere
  | [] => []
  | si :: rest =>
      add_sphere si.item.name si.scale (x + (p + si.scale + p), 0, 0)
        :: layoutFrom (x + (p + si.scale + p)) si.scale rest

/-- The three-item dataset of the spec's concrete scenario. -/
def itemsABC : List Item := [⟨"A", 10⟩, ⟨"B", 20⟩, ⟨"C", 5⟩]

/-- A concrete one-sphere input. -/
def oneSphere : List Sphere := [⟨"S", 1, (0, 0, 1)⟩]

/-- A concrete two-sphere input. -/
def twoSpheres : List Sphere := [⟨"A", 1, (0, 0, 1)⟩, ⟨"B", 3, (5, 0, 3)⟩]

/-- A concrete three-sphere input. -/
def threeSpheres : List Sphere :=
  [⟨"A", 1, (0, 0, 1)⟩, ⟨"B", 2, (4, 0, 2)⟩, ⟨"C", 3, (11, 0, 3)⟩]

/-- A concrete two-element scaled-item input. -/
def pairScaled : List ScaledItem := [⟨⟨"P", 1⟩, 1⟩, ⟨⟨"Q", 2⟩, 2⟩]

/-- A concrete three-element scaled-item input. -/
def trioScaled : List ScaledItem := [⟨⟨"U", 3⟩, 3⟩, ⟨⟨"V", 1⟩, 1⟩, ⟨⟨"W", 2⟩, 2⟩]

/-! ## Layout lemmas -/

lemma add_sphere_scale (n : String) (s : ℚ) (loc : ℚ × ℚ × ℚ) :
    (add_sphere n s loc).scale = s := rfl

lemma add_sphere_x (n : String) (s : ℚ) (loc : ℚ × ℚ × ℚ) :
    (add_sphere n s loc).location.1 = loc.1 := rfl

lemma foldl_layoutStep (scaled : List ScaledItem) :
    ∀ (x : ℚ) (l : List Sphere) (s : Sphere), l.getLast? = some s →
      (scaled.foldl layoutStep (x, l)).2 = l ++ layoutFrom x s.scale scaled := by
  induction scaled with
  | nil => intro x l s _; simp [layoutFrom]
  | cons si rest ih =>
      intro x l s h
      rw [List.foldl_cons]
      have hstep : layoutStep (x, l) si =
          (x + (s.scale + si.scale + s.scale),
           l ++ [add_sphere si.item.name si.scale (x + (s.scale + si.scale + s.scale), 0, 0)]) := by
        simp [layoutStep, h]
      rw [hstep,
        ih _ _ (add_sphere si.item.name si.scale (x + (s.scale + si.scale + s.scale), 0, 0))
          (List.getLast?_concat l)]
      simp [layoutFrom, add_sphere_scale]

lemma layout_nil : layout [] = [] := rfl

lemma layout_cons (si : ScaledItem) (rest : List ScaledItem) :
    layout (si :: rest) =
      add_sphere si.item.name si.scale (0, 0, 0) :: layoutFrom 0 si.scale rest := by
  unfold layout
  rw [List.foldl_cons]
  have hstep : layoutStep (0, []) si =
      (0, [add_sphere si.item.name si.scale (0, 0, 0)]) := by
    simp [layoutStep]
  rw [hstep,
    foldl_layoutStep rest 0 [add_sphere si.item.name si.scale (0, 0, 0)] _ rfl]
  simp [add_sphere_scale]

lemma layoutFrom_map_name : ∀ (rest : List ScaledItem) (x p : ℚ),
    (layoutFrom x p rest).map (fun s => s.name) = rest.map (fun si => si.item.name) := by
  intro rest
  induction rest with
  | nil => intro x p; rfl
  | cons si rest ih => intro x p; simp [layoutFrom, add_sphere, ih]

lemma layoutFrom_map_x : ∀ (rest : List ScaledItem) (x p : ℚ),
    (layoutFrom x p rest).map (fun s => s.location.1) =
      specXFrom x p (rest.map (fun si => si.scale)) := by
  intro rest
  induction rest with
  | nil => intro x p; rfl
  | cons si rest ih =>
      intro x p
      have hx : x + (p + si.scale + p) = x + 2 * p + si.scale := by ring
      simp only [layoutFrom, List.map_cons, add_sphere_x, specXFrom, hx, ih]

/-- Claim C1: for every sequence of scaled items, the layout emits one sphere
per item in input order, placing the first at `x = 0` and every subsequent one
at `x_i = x_{i-1} + 2 * scale_{i-1} + scale_i` (the spec-worded recurrence
`specLayoutX`). -/
theorem layout_matches_spec_recurrence (scaled : List ScaledItem) :
    (layout scaled).map (fun s => s.name) = scaled.map (fun si => si.item.name) ∧
    (layout scaled).map (fun s => s.location.1) =
      specLayoutX (scaled.map (fun si => si.scale)) := by
  cases scaled with
  | nil => exact ⟨rfl, rfl⟩
  | cons si rest =>
      rw [layout_cons]
      constructor
      · simp [add_sphere, layoutFrom_map_name]
      · simp only [List.map_cons, add_sphere_x, specLayoutX, layoutFrom_map_x]

lemma layoutFrom_ground : ∀ (rest : List ScaledItem) (x p : ℚ),
    ∀ sph ∈ layoutFrom x p rest, sph.location.2.1 = 0 ∧ sph.location.2.2 = sph.scale := by
  intro rest
  induction rest with
  | nil => intro x p sph h; simp [layoutFrom] at h
  | cons si rest ih =>
      intro x p sph h
      rw [layoutFrom] at h
      rcases List.mem_cons.mp h with h | h
      · subst h; exact ⟨rfl, rfl⟩
      · exact ih _ _ sph h

lemma layout_ground (scaled : List ScaledItem) :
    ∀ sph ∈ layout scaled, sph.location.2.1 = 0 ∧ sph.location.2.2 = sph.scale := by
  cases scaled with
  | nil => intro sph h; simp [layout_nil] at h
  | cons si rest =>
      rw [layout_cons]
      intro sph h
      rcases List.mem_cons.mp h with h | h
      · subst h; exact ⟨rfl, rfl⟩
      · exact layoutFrom_ground rest 0 si.scale sph h

lemma layoutFrom_chain : ∀ (rest : List ScaledItem) (a : Sphere),
    0 < a.scale → (∀ si ∈ rest, 0 < si.scale) →
    List.Chain'
      (fun u v : Sphere =>
        u.location.1 < v.location.1 ∧ u.scale + v.scale ≤ v.location.1 - u.location.1)
      (a :: layoutFrom a.location.1 a.scale rest) := by
  intro rest
  induction rest with
  | nil => intro a _ _; simp [layoutFrom]
  | cons si rest ih =>
      intro a ha hpos
      have hsi : 0 < si.scale := hpos si (by simp)
      rw [layoutFrom, List.chain'_cons]
      constructor
      · constructor
        · show a.location.1 < a.location.1 + (a.scale + si.scale + a.scale)
          linarith
        · show a.scale + si.scale ≤
            a.location.1 + (a.scale + si.scale + a.scale) - a.location.1
          linarith
      · exact ih (add_sphere si.item.name si.scale
            (a.location.1 + (a.scale + si.scale + a.scale), 0, 0)) hsi
          (fun sj hj => hpos sj (by simp [hj]))

lemma layout_chain (scaled : List ScaledItem) (hpos : ∀ si ∈ scaled, 0 < si.scale) :
    List.Chain'
      (fun u v : Sphere =>
        u.location.1 < v.location.1 ∧ u.scale + v.scale ≤ v.location.1 - u.location.1)
      (layout scaled) := by
  cases scaled with
  | nil => simp [layout_nil]
  | cons si rest =>
      rw [layout_cons]
      exact layoutFrom_chain rest (add_sphere si.item.name si.scale (0, 0, 0))
        (hpos si (by simp)) (fun sj hj => hpos sj (by simp [hj]))

lemma layout_x_pairwise (scaled : List ScaledItem) (hpos : ∀ si ∈ scaled, 0 < si.scale) :
    ((layout scaled).map (fun s => s.location.1)).Pairwise (· < ·) := by
  have hchain := (layout_chain scaled hpos).imp
    (fun {u v} h => h.1)
  exact List.chain'_iff_pairwise.mp ((List.chain'_map _).mpr hchain)

/-- Claim C6: every placement produced by the layout has `y = 0` and `z` equal
to its own scale, and, whenever all scales are positive, the placements are
totally ordered by strictly ascending `x`. -/
theorem placements_ground_and_ascending (scaled : List ScaledItem) :
    (∀ sph ∈ layout scaled, sph.location.2.1 = 0 ∧ sph.location.2.2 = sph.scale) ∧
    ((∀ si ∈ scaled, 0 < si.scale) →
      ((layout scaled).map (fun s => s.location.1)).Pairwise (· < ·)) :=
  ⟨layout_ground scaled, layout_x_pairwise scaled⟩

/-- Claim C6 witness at a concrete input. -/
theorem placements_ground_and_ascending_witness :
    (∀ sph ∈ layout trioScaled, sph.location.2.1 = 0 ∧ sph.location.2.2 = sph.scale) ∧
    ((layout trioScaled).map (fun s => s.location.1)).Pairwise (· < ·) :=
  ⟨(placements_ground_and_ascending trioScaled).1,
   (placements_ground_and_ascending trioScaled).2 (by decide)⟩

/-- Claim C7: when every scale is positive, the layout's `x` values are
strictly increasing and consecutive spheres' silhouettes do not overlap:
the gap `x_i - x_{i-1}` is at least `scale_{i-1} + scale_i`. -/
theorem layout_ascending_no_overlap (scaled : List ScaledItem)
    (hpos : ∀ si ∈ scaled, 0 < si.scale) :
    ((layout scaled).map (fun s => s.location.1)).Pairwise (· < ·) ∧
    List.Chain'
      (fun u v : Sphere => u.scale + v.scale ≤ v.location.1 - u.location.1)
      (layout scaled) :=
  ⟨layout_x_pairwise scaled hpos,
   (layout_chain scaled hpos).imp (fun {_ _} h => h.2)⟩

/-- Claim C7 witness at a concrete input. -/
theorem layout_ascending_no_overlap_witness :
    (∀ si ∈ pairScaled, 0 < si.scale) ∧
    (((layout pairScaled).map (fun s => s.location.1)).Pairwise (· < ·) ∧
     List.Chain'
       (fun u v : Sphere => u.scale + v.scale ≤ v.location.1 - u.location.1)
       (layout pairScaled)) :=
  ⟨by decide, layout_ascending_no_overlap pairScaled (by decide)⟩

/-! ## Camera timeline lemmas -/

lemma animate_camera_length : ∀ (spheres : List Sphere) (f : ℕ),
    (animate_camera spheres f).1.length = 2 * spheres.length := by
  intro spheres
  induction spheres with
  | nil => intro f; rfl
  | cons sph rest ih =>
      intro f
      simp only [animate_camera, List.length_cons, ih]
      ring

lemma animate_camera_snd : ∀ (spheres : List Sphere) (f : ℕ),
    (animate_camera spheres f).2 = f + spheres.length * (FRAME_PAUSE + FRAME_MOVE) := by
  intro spheres
  induction spheres with
  | nil => intro f; simp [animate_camera]
  | cons sph rest ih =>
      intro f
      simp only [animate_camera, ih, List.length_cons]
      ring

lemma animate_camera_get : ∀ (spheres : List Sphere) (f i : ℕ), i < spheres.length →
    ∃ sph, spheres[i]? = some sph ∧
      (animate_camera spheres f).1[2 * i]? =
        some ⟨f + i * (FRAME_PAUSE + FRAME_MOVE), cameraPos sph⟩ ∧
      (animate_camera spheres f).1[2 * i + 1]? =
        some ⟨f + i * (FRAME_PAUSE + FRAME_MOVE) + FRAME_PAUSE, cameraPos sph⟩ := by
  intro spheres
  induction spheres with
  | nil => intro f i h; simp at h
  | cons sph rest ih =>
      intro f i h
      cases i with
      | zero => exact ⟨sph, by simp [animate_camera]⟩
      | succ j =>
          obtain ⟨s, hs, h1, h2⟩ := ih (f + FRAME_PAUSE + FRAME_MOVE) j
            (by simpa using Nat.lt_of_succ_lt_succ h)
          have e1 : 2 * (j + 1) = 2 * j + 1 + 1 := by ring
          have e2 : 2 * (j + 1) + 1 = (2 * j + 1) + 1 + 1 := by ring
          have ef : f + FRAME_PAUSE + FRAME_MOVE + j * (FRAME_PAUSE + FRAME_MOVE) =
              f + (j + 1) * (FRAME_PAUSE + FRAME_MOVE) := by ring
          refine ⟨s, by simpa using hs, ?_, ?_⟩
          · rw [e1]
            simpa [animate_camera, ef] using h1
          · rw [e2]
            simpa [animate_camera, ef] using h2

lemma animate_camera_frames_chain : ∀ (spheres : List Sphere) (f : ℕ),
    List.Chain' (· < ·) ((animate_camera spheres f).1.map (fun k => k.frame)) := by
  intro spheres
  induction spheres with
  | nil => intro f; simp [animate_camera]
  | cons sph rest ih =>
      intro f
      cases rest with
      | nil =>
          simp only [animate_camera, List.map_cons, List.map_nil]
          exact List.chain'_cons.mpr
            ⟨Nat.lt_add_of_pos_right (by decide), List.chain'_singleton _⟩
      | cons sph2 rest2 =>
          have ihc := ih (f + FRAME_PAUSE + FRAME_MOVE)
          simp only [animate_camera, List.map_cons] at ihc ⊢
          refine List.chain'_cons.mpr ⟨Nat.lt_add_of_pos_right (by decide), ?_⟩
          exact List.chain'_cons.mpr ⟨Nat.lt_add_of_pos_right (by decide), ihc⟩

/-- Claim C4: for each placement `i` (in order), the camera path contains its
first keyframe at frame `1 + i * (FRAME_PAUSE + FRAME_MOVE)` and its second at
`FRAME_PAUSE` frames later, both at camera position
`(x, -radius * 10, radius * 1.3)` for that sphere; hence consecutive items'
first keyframes are `FRAME_MOVE` frames after the previous item's second. -/
theorem camera_two_keyframes_per_placement (spheres : List Sphere) (i : ℕ)
    (hi : i < spheres.length) :
    ∃ sph, spheres[i]? = some sph ∧
      (cameraTimeline spheres).1[2 * i]? =
        some ⟨1 + i * (FRAME_PAUSE + FRAME_MOVE), cameraPos sph⟩ ∧
      (cameraTimeline spheres).1[2 * i + 1]? =
        some ⟨1 + i * (FRAME_PAUSE + FRAME_MOVE) + FRAME_PAUSE, cameraPos sph⟩ :=
  animate_camera_get spheres 1 i hi

/-- Claim C4 witness at a concrete input. -/
theorem camera_two_keyframes_per_placement_witness :
    1 < twoSpheres.length ∧
    ∃ sph, twoSpheres[1]? = some sph ∧
      (cameraTimeline twoSpheres).1[2 * 1]? =
        some ⟨1 + 1 * (FRAME_PAUSE + FRAME_MOVE), cameraPos sph⟩ ∧
      (cameraTimeline twoSpheres).1[2 * 1 + 1]? =
        some ⟨1 + 1 * (FRAME_PAUSE + FRAME_MOVE) + FRAME_PAUSE, cameraPos sph⟩ :=
  ⟨by decide, camera_two_keyframes_per_placement twoSpheres 1 (by decide)⟩

/-- Claim C5: for every sphere sequence of length `n`, the generated timeline
holds exactly `2 * n` keyframes with strictly increasing frame numbers. -/
theorem camera_keyframe_count_and_monotone (spheres : List Sphere) :
    (cameraTimeline spheres).1.length = 2 * spheres.length ∧
    ((cameraTimeline spheres).1.map (fun k => k.frame)).Pairwise (· < ·) :=
  ⟨animate_camera_length spheres 1,
   List.chain'_iff_pairwise.mp (animate_camera_frames_chain spheres 1)⟩

/-- Claim C10: for a non-empty sphere sequence, the first keyframe is at frame
`1` and the scene's final frame (`frame_end`) is `1 + n * (FRAME_PAUSE +
FRAME_MOVE)`: the loop appends a `FRAME_MOVE` travel phase after the last
item's hold as well. -/
theorem camera_first_frame_and_frame_end (spheres : List Sphere)
    (h : spheres ≠ []) :
    ((cameraTimeline spheres).1.head?).map (fun k => k.frame) = some 1 ∧
    (cameraTimeline spheres).2 = 1 + spheres.length * (FRAME_PAUSE + FRAME_MOVE) := by
  constructor
  · cases spheres with
    | nil => exact absurd rfl h
    | cons sph rest => rfl
  · exact animate_camera_snd spheres 1

/-- Claim C10 witness at a concrete input. -/
theorem camera_first_frame_and_frame_end_witness :
    oneSphere ≠ [] ∧
    (((cameraTimeline oneSphere).1.head?).map (fun k => k.frame) = some 1 ∧
     (cameraTimeline oneSphere).2 = 1 + oneSphere.length * (FRAME_PAUSE + FRAME_MOVE)) :=
  ⟨by decide, camera_first_frame_and_frame_end oneSphere (by decide)⟩

/-- Claim C2 counterexample: for three placements with `FRAME_PAUSE = 24` and
`FRAME_MOVE = 36`, the code sets `frame_end` to `181`, not `145` and not the
claimed closed form `(n - 1) * (pause + move) + pause = 144`: the loop adds a
trailing `FRAME_MOVE` after the last item before `frame_end` is read. -/
theorem camera_total_frames_claim_false :
    (cameraTimeline threeSpheres).2 = 181 ∧
    ¬((cameraTimeline threeSpheres).2 =
        (threeSpheres.length - 1) * (FRAME_PAUSE + FRAME_MOVE) + FRAME_PAUSE) ∧
    ¬((cameraTimeline threeSpheres).2 = 145) := by
  refine ⟨?_, ?_, ?_⟩ <;> decide

/-- Claim C2 as amended: for a non-empty placement sequence of length `n`,
`frame_end` (`total_frames`) is `1 + n * (pause + move)` — a trailing move
phase is included after the last item — while the timeline's final keyframe
(index `2 * n - 1`) sits at frame `1 + (n - 1) * (pause + move) + pause`,
which is `145` for three placements with pause `24` and move `36`. -/
theorem camera_frame_end_and_last_keyframe (spheres : List Sphere)
    (h : spheres ≠ []) :
    (cameraTimeline spheres).2 = 1 + spheres.length * (FRAME_PAUSE + FRAME_MOVE) ∧
    (cameraTimeline spheres).1.length = 2 * spheres.length ∧
    ∃ k, (cameraTimeline spheres).1[2 * spheres.length - 1]? = some k ∧
      k.frame = 1 + (spheres.length - 1) * (FRAME_PAUSE + FRAME_MOVE) + FRAME_PAUSE := by
  refine ⟨animate_camera_snd spheres 1, animate_camera_length spheres 1, ?_⟩
  obtain ⟨m, hm⟩ : ∃ m, spheres.length = m + 1 :=
    ⟨spheres.length - 1, (Nat.succ_pred_eq_of_pos (List.length_pos.mpr h)).symm⟩
  obtain ⟨sph, -, -, h2⟩ := animate_camera_get spheres 1 m (by omega)
  refine ⟨⟨1 + m * (FRAME_PAUSE + FRAME_MOVE) + FRAME_PAUSE, cameraPos sph⟩, ?_, by
    rw [hm]; simp⟩
  have hidx : 2 * spheres.length - 1 = 2 * m + 1 := by omega
  rw [hidx]
  exact h2

/-- Claim C2 witness (of the amended statement) at a concrete input. -/
theorem camera_frame_end_and_last_keyframe_witness :
    threeSpheres ≠ [] ∧
    ((cameraTimeline threeSpheres).2 =
        1 + threeSpheres.length * (FRAME_PAUSE + FRAME_MOVE) ∧
     (cameraTimeline threeSpheres).1.length = 2 * threeSpheres.length ∧
     ∃ k, (cameraTimeline threeSpheres).1[2 * threeSpheres.length - 1]? = some k ∧
       k.frame = 1 + (threeSpheres.length - 1) * (FRAME_PAUSE + FRAME_MOVE) + FRAME_PAUSE) :=
  ⟨by decide, camera_frame_end_and_last_keyframe threeSpheres (by decide)⟩

/-! ## Size-mapper lemmas -/

lemma foldl_max_le : ∀ (l : List Item) (a : ℚ),
    a ≤ l.foldl (fun m i => max m i.value) a ∧
    ∀ it ∈ l, it.value ≤ l.foldl (fun m i => max m i.value) a := by
  intro l
  induction l with
  | nil => intro a; exact ⟨le_refl a, by simp⟩
  | cons i l ih =>
      intro a
      refine ⟨le_trans (le_max_left a i.value) (ih (max a i.value)).1, ?_⟩
      intro it hit
      rcases List.mem_cons.mp hit with h | h
      · subst h
        exact le_trans (le_max_right a it.value) (ih (max a it.value)).1
      · exact (ih (max a i.value)).2 it h

lemma foldl_max_mem : ∀ (l : List Item) (a : ℚ),
    l.foldl (fun m i => max m i.value) a = a ∨
    ∃ it ∈ l, l.foldl (fun m i => max m i.value) a = it.value := by
  intro l
  induction l with
  | nil => intro a; left; rfl
  | cons i l ih =>
      intro a
      rw [List.foldl_cons]
      rcases ih (max a i.value) with h | ⟨it, hit, h⟩
      · rcases max_choice a i.value with hm | hm
        · left; rw [h, hm]
        · right; exact ⟨i, by simp, by rw [h, hm]⟩
      · right; exact ⟨it, by simp [hit], h⟩

lemma maxValue_spec (it : Item) (rest : List Item) :
    ∃ m, maxValue (it :: rest) = some m ∧
      (∀ j ∈ it :: rest, j.value ≤ m) ∧ ∃ j ∈ it :: rest, j.value = m := by
  have h0 : maxValue (it :: rest) =
      some (rest.foldl (fun m i => max m i.value) it.value) := rfl
  refine ⟨rest.foldl (fun m i => max m i.value) it.value, h0, ?_, ?_⟩
  · intro j hj
    rcases List.mem_cons.mp hj with h | h
    · subst h; exact (foldl_max_le rest j.value).1
    · exact (foldl_max_le rest it.value).2 j h
  · rcases foldl_max_mem rest it.value with h | ⟨j, hj, h⟩
    · exact ⟨it, by simp, h.symm⟩
    · exact ⟨j, by simp [hj], h.symm⟩

/-- Claim C3: on a non-empty item list with positive values, the size mapper
emits one scaled item per item in the same order, each with
`scale = value / max_value * SCALE_FACTOR`; an item carrying the maximum value
gets scale exactly `SCALE_FACTOR`, and every scale lies in
`(0, SCALE_FACTOR]`. -/
theorem sizeMapper_normalizes (items : List Item) (hne : items ≠ [])
    (hpos : ∀ it ∈ items, 0 < it.value) :
    ∃ m out, maxValue items = some m ∧ sizeMapper items = some out ∧
      out.map (fun si => si.item) = items ∧
      (∀ si ∈ out, si.scale = si.item.value / m * SCALE_FACTOR) ∧
      (∃ si ∈ out, si.item.value = m ∧ si.scale = SCALE_FACTOR) ∧
      (∀ si ∈ out, 0 < si.scale ∧ si.scale ≤ SCALE_FACTOR) := by
  cases items with
  | nil => exact absurd rfl hne
  | cons it rest =>
      obtain ⟨m, hmax, hle, jm, hjm, hjv⟩ := maxValue_spec it rest
      have hm : 0 < m := hjv ▸ hpos jm hjm
      refine ⟨m, (it :: rest).map (fun i => ⟨i, i.value / m * SCALE_FACTOR⟩),
        hmax, ?_, ?_, ?_, ?_, ?_⟩
      · simp [sizeMapper, hmax]
      · simp [Function.comp_def]
      · intro si hsi
        obtain ⟨i, _, hi⟩ := List.mem_map.mp hsi
        subst hi
        rfl
      · refine ⟨⟨jm, jm.value / m * SCALE_FACTOR⟩, List.mem_map_of_mem _ hjm, hjv, ?_⟩
        show jm.value / m * SCALE_FACTOR = SCALE_FACTOR
        rw [hjv, div_self (ne_of_gt hm), one_mul]
      · intro si hsi
        obtain ⟨i, hi_mem, hi⟩ := List.mem_map.mp hsi
        subst hi
        have hvpos : 0 < i.value := hpos i hi_mem
        have hvle : i.value ≤ m := hle i hi_mem
        constructor
        · show 0 < i.value / m * SCALE_FACTOR
          have : (0 : ℚ) < SCALE_FACTOR := by norm_num [SCALE_FACTOR]
          exact mul_pos (div_pos hvpos hm) this
        · show i.value / m * SCALE_FACTOR ≤ SCALE_FACTOR
          have h1 : i.value / m ≤ 1 := (div_le_one hm).mpr hvle
          have h2 : (0 : ℚ) ≤ SCALE_FACTOR := by norm_num [SCALE_FACTOR]
          calc i.value / m * SCALE_FACTOR ≤ 1 * SCALE_FACTOR :=
                mul_le_mul_of_nonneg_right h1 h2
            _ = SCALE_FACTOR := one_mul _

/-- Claim C3 witness at the concrete `itemsABC` dataset. -/
theorem sizeMapper_normalizes_witness :
    (itemsABC ≠ [] ∧ ∀ it ∈ itemsABC, 0 < it.value) ∧
    ∃ m out, maxValue itemsABC = some m ∧ sizeMapper itemsABC = some out ∧
      out.map (fun si => si.item) = itemsABC ∧
      (∀ si ∈ out, si.scale = si.item.value / m * SCALE_FACTOR) ∧
      (∃ si ∈ out, si.item.value = m ∧ si.scale = SCALE_FACTOR) ∧
      (∀ si ∈ out, 0 < si.scale ∧ si.scale ≤ SCALE_FACTOR) :=
  ⟨⟨by decide, by decide⟩, sizeMapper_normalizes itemsABC (by decide) (by decide)⟩

/-- Claim C8: on an empty item list the size mapper fails: the maximum value
is undefined, so no scaled items are produced. -/
theorem sizeMapper_empty_fails : sizeMapper [] = none := rfl

/-- Claim C9: for the dataset `{A: 10, B: 20, C: 5}` with `SCALE_FACTOR = 2`,
the computed scales are `[1, 2, 1/2]` and the layout places the spheres at
`x = 0`, `x = 4` and `x = 17/2`. -/
theorem concrete_dataset_scenario :
    (sizeMapper itemsABC).map (fun out => out.map (fun si => si.scale)) =
      some [1, 2, 1 / 2] ∧
    (sizeMapper itemsABC).map (fun out => (layout out).map (fun s => s.location.1)) =
      some [0, 4, 17 / 2] := by
  constructor
  · simp only [sizeMapper, maxValue, itemsABC, SCALE_FACTOR, List.foldl_cons,
      List.foldl_nil, List.map_cons, List.map_nil, Option.map_some]
    norm_num
  · simp only [sizeMapper, maxValue, itemsABC, SCALE_FACTOR, List.foldl_cons,
      List.foldl_nil, List.map_cons, List.map_nil, Option.map_some]
    norm_num [layout_cons, layoutFrom, add_sphere]

end LocVerse
